import Mathlib

/-!
Shallow embedding of the tunnel-and-query core of the GUI repository
(src/query_manager.py, src/ssh_db_connector.py, src/gui.py), together with
theorems settling the spec claims about it.

Conventions of the embedding:
* machine timestamps are integers (epoch seconds, UTC) — the MySQL driver
  and the strftime("%Y-%m-%d %H:%M:%S") parameter formatting both work at
  second granularity;
* the America/Los_Angeles zone conversion is modelled as a fixed
  order-preserving offset (standard time); no claim depends on the offset
  value, only on the conversion being applied uniformly;
* numeric cell values are rationals (pandas float arithmetic is modelled
  exactly; the claims' example values are exactly representable);
* a fetched row is an association list from column name to cell, and a
  DataFrame is the list of its rows; `df.columns` of a non-empty frame is
  the key list of its first row (SQL results give every row the same keys).
-/

namespace GUIVerify

/-- A value held in one DataFrame cell: SQL NULL / pandas NaN-NaT, a number,
a string, or a datetime (epoch seconds, UTC until the zone conversion step). -/
inductive Cell where
  | null
  | num (q : ℚ)
  | str (s : String)
  | ts (t : ℤ)
deriving DecidableEq

instance {ε α : Type} [DecidableEq ε] [DecidableEq α] : DecidableEq (Except ε α) :=
  fun a b =>
    match a, b with
    | Except.ok x, Except.ok y =>
        if h : x = y then isTrue (by rw [h])
        else isFalse (fun hh => h (by injection hh))
    | Except.error x, Except.error y =>
        if h : x = y then isTrue (by rw [h])
        else isFalse (fun hh => h (by injection hh))
    | Except.ok _, Except.error _ => isFalse (fun hh => Except.noConfusion hh)
    | Except.error _, Except.ok _ => isFalse (fun hh => Except.noConfusion hh)

/-- A fetched row: association list from column name to cell. -/
abbrev Row : Type := List (String × Cell)

/-- A DataFrame: list of rows. -/
abbrev DF : Type := List Row

/-- Python `str.lower()` on a column name (written over the character list
so that the kernel can evaluate it). -/
def strLower (s : String) : String := String.mk (s.data.map Char.toLower)

/-- Python `str.endswith(suffix)` (written over the character lists so that
the kernel can evaluate it). -/
def strEndsWith (s suffix : String) : Bool := List.isSuffixOf suffix.data s.data

/-- Left-to-right non-overlapping replacement of `pat` by `rep` in a
character list, with explicit fuel (the list length bounds the recursion);
models Python `str.replace`. -/
def replaceChars (pat rep : List Char) : ℕ → List Char → List Char
  | 0, _ => []
  | _ + 1, [] => []
  | n + 1, c :: rest =>
      if pat.isPrefixOf (c :: rest) then
        rep ++ replaceChars pat rep n (rest.drop (pat.length - 1))
      else c :: replaceChars pat rep n rest

/-- Python `s.replace(pat, rep)`. -/
def strReplace (s pat rep : String) : String :=
  String.mk (replaceChars pat.data rep.data (s.data.length + 1) s.data)

/-- One row of the cp_device table (the columns the queries touch). -/
structure DeviceRow where
  device_name : String
  esp_ble_id : String
deriving DecidableEq

/-- Database contents visible to the queries of QueryManager.run_query:
the cp_device_metrics table (raw rows) and the cp_device table. -/
structure DB where
  metrics : List Row
  devices : List DeviceRow
deriving DecidableEq

/-! ### gui.py `_get_validated_date_range` (src/gui.py lines 169-208) -/

/-- Microseconds per day (Python datetime/timedelta resolution). -/
def usPerDay : ℤ := 86400000000

/-- One date-entry text after `dateutil.parser.parse` has analysed it: the
calendar date it names (as a day number) and, when the text carried an
explicit time of day, that time in microseconds.  A missing time of day is
filled from the `default=datetime.today()` argument at parse time. -/
structure DateInput where
  day : ℤ
  tod : Option ℤ
deriving DecidableEq

/-- dateutil parse with `default` carrying time of day `defTod`: fields the
text supplies win, missing time fields come from the default. -/
def parseDateWith (defTod : ℤ) (x : DateInput) : ℤ :=
  x.day * usPerDay + x.tod.getD defTod

/-- The blank-fill defaulting of `_get_validated_date_range`: one blank side
is copied from the other; two blank sides both become today's date (written
as a plain date, so with no explicit time of day). -/
def fillDates (s? e? : Option DateInput) (todayDay : ℤ) : DateInput × DateInput :=
  match s?, e? with
  | some s, none => (s, s)
  | none, some e => (e, e)
  | none, none => (⟨todayDay, none⟩, ⟨todayDay, none⟩)
  | some s, some e => (s, e)

/-- `MetricsApp._get_validated_date_range`: blank-fill, parse both entries
(the two `datetime.today()` defaults may differ, hence two parameters),
reject `end <= start`, reject `(end - start).days > 7` (timedelta.days is
the floor of the difference in whole days), else return the pair. -/
def getValidatedDateRange (s? e? : Option DateInput) (todayDay defTod1 defTod2 : ℤ) :
    Except String (ℤ × ℤ) :=
  let se := fillDates s? e? todayDay
  let start := parseDateWith defTod1 se.1
  let stop := parseDateWith defTod2 se.2
  if stop ≤ start then Except.error "End date must be after start date."
  else if (stop - start).fdiv usPerDay > 7 then
    Except.error "Date range cannot exceed 7 days."
  else Except.ok (start, stop)

/-- The resolved start datetime (after blank-fill and parsing). -/
def resolvedStart (s? e? : Option DateInput) (todayDay defTod1 : ℤ) : ℤ :=
  parseDateWith defTod1 (fillDates s? e? todayDay).1

/-- The resolved end datetime (after blank-fill and parsing). -/
def resolvedEnd (s? e? : Option DateInput) (todayDay defTod2 : ℤ) : ℤ :=
  parseDateWith defTod2 (fillDates s? e? todayDay).2

/-! ### ssh_db_connector.py `SSHDatabaseConnector.disconnect` (lines 226-245) -/

/-- A closeable resource of the connector; `fails` says whether its
close/dispose/stop call raises when invoked. -/
structure Closeable where
  fails : Bool
deriving DecidableEq

/-- The four resource slots of SSHDatabaseConnector; `none` means the
attribute is None. -/
structure ConnState where
  engine : Option Closeable
  forwarder : Option Closeable
  transport : Option Closeable
  client : Option Closeable
deriving DecidableEq

/-- The fully torn-down connector: every attribute is None. -/
def disconnectedState : ConnState := ⟨none, none, none, none⟩

/-- The client step of `disconnect` (last step).  Returns the new state and
the teardown trace, or the raising step's name and the state at the raise.
The source has no try/except around the step: a raise propagates. -/
def discClient (s : ConnState) (tr : List String) :
    Except (String × ConnState) (ConnState × List String) :=
  match s.client with
  | some r =>
      if r.fails then Except.error ("client", s)
      else Except.ok ({ s with client := none }, tr ++ ["client"])
  | none => Except.ok (s, tr)

/-- The transport step of `disconnect`, then the client step. -/
def discTransport (s : ConnState) (tr : List String) :
    Except (String × ConnState) (ConnState × List String) :=
  match s.transport with
  | some r =>
      if r.fails then Except.error ("transport", s)
      else discClient { s with transport := none } (tr ++ ["transport"])
  | none => discClient s tr

/-- The forwarder step of `disconnect` (stop + join), then the later steps. -/
def discForwarder (s : ConnState) (tr : List String) :
    Except (String × ConnState) (ConnState × List String) :=
  match s.forwarder with
  | some r =>
      if r.fails then Except.error ("forwarder", s)
      else discTransport { s with forwarder := none } (tr ++ ["forwarder"])
  | none => discTransport s tr

/-- `SSHDatabaseConnector.disconnect`: engine, then forwarder, then
transport, then client, each step only when the attribute is set, with the
attribute cleared after a successful step.  No step is wrapped in
try/except, so a raising step propagates and the remaining steps never run. -/
def disconnect (s : ConnState) :
    Except (String × ConnState) (ConnState × List String) :=
  match s.engine with
  | some r =>
      if r.fails then Except.error ("engine", s)
      else discForwarder { s with engine := none } ["engine"]
  | none => discForwarder s []

/-! ### ssh_db_connector.py `SSHForwardServer.run` (lines 21-51) -/

/-- One accepted local connection; `chanFails` says whether
`transport.open_channel("direct-tcpip", ...)` raises for it. -/
structure AcceptedConn where
  id : ℕ
  chanFails : Bool
deriving DecidableEq

/-- One iteration's outcome of the blocking `accept()` call: either a new
connection, or OSError because the listening socket was closed. -/
inductive AcceptEvent where
  | conn (c : AcceptedConn)
  | socketClosed
deriving DecidableEq

/-- What the accept loop did: which accepted sockets it closed (channel
creation failed) and which it handed to relay handler threads. -/
structure LoopResult where
  closedSockets : List ℕ
  handlers : List ℕ
deriving DecidableEq

/-- The accept loop of `SSHForwardServer.run`: on OSError from accept()
the loop breaks (later events never happen); on a connection whose channel
creation fails the accepted socket is closed and the loop continues; a
successful pair is handed to a handler thread.  The loop body never lets a
per-connection failure escape: the function is total and returns a
LoopResult for every event sequence. -/
def runAcceptLoop : List AcceptEvent → LoopResult
  | [] => ⟨[], []⟩
  | AcceptEvent.socketClosed :: _ => ⟨[], []⟩
  | AcceptEvent.conn c :: rest =>
      let r := runAcceptLoop rest
      if c.chanFails then ⟨c.id :: r.closedSockets, r.handlers⟩
      else ⟨r.closedSockets, c.id :: r.handlers⟩

/-! ### query_manager.py time handling -/

/-- Model of the America/Los_Angeles offset from UTC, in seconds (standard
time; the conversion only needs to be a fixed order-preserving shift for the
claims at hand). -/
def laOffset : ℤ := -28800

/-- `tz_localize("UTC").tz_convert(LA_TZ).tz_localize(None)`: UTC instant to
tz-naive local wall-clock. -/
def utcToLa (t : ℤ) : ℤ := t + laOffset

/-- LA wall-clock (naive) to UTC instant (`LA_TZ.localize(...).astimezone(UTC)`). -/
def laToUtc (t : ℤ) : ℤ := t - laOffset

/-- Seconds per day. -/
def dayLen : ℤ := 86400

/-- The UTC window start for a start date (day number): local midnight of
that day, converted to UTC and formatted at second granularity. -/
def windowStartUtc (d : ℤ) : ℤ := laToUtc (d * dayLen)

/-- The UTC window end for an end date: local 23:59:59.999999 of that day —
strftime("%Y-%m-%d %H:%M:%S") drops the microseconds, so the bound actually
sent is local 23:59:59, converted to UTC. -/
def windowEndUtc (d : ℤ) : ℤ := laToUtc (d * dayLen + 86399)

/-! ### query_manager.py SQL layer (QueryManager.run_query, lines 58-192) -/

/-- The string value of a row's column, when it holds a string. -/
def getStr (r : Row) (c : String) : Option String :=
  match r.lookup c with
  | some (Cell.str s) => some s
  | _ => none

/-- The `updated_at` value of a metrics row as SQL sees it (NULL unless the
cell holds a datetime). -/
def sqlTs (r : Row) : Option ℤ :=
  match r.lookup "updated_at" with
  | some (Cell.ts t) => some t
  | _ => none

/-- `SELECT DISTINCT device_name FROM cp_device WHERE esp_ble_id = :fv`:
the device names owned by a secondary (BLE) identifier. -/
def espDeviceNames (db : DB) (fv : String) : List String :=
  ((db.devices.filter (fun d => d.esp_ble_id == fv)).map (fun d => d.device_name)).dedup

/-- WHERE clause of the MIN/MAX range query (lines 77-90): for esp_ble_id, a
join of the metrics with the device-name subquery; otherwise a direct
equality on the named metrics column. -/
def rangeCond (db : DB) (ft fv : String) (r : Row) : Bool :=
  if ft == "esp_ble_id" then
    match getStr r "device_name" with
    | some d => (espDeviceNames db fv).contains d
    | none => false
  else r.lookup ft == some (Cell.str fv)

/-- WHERE clause (filter part) of the EXISTS probe (lines 103-121): same
two-way split as the range query. -/
def checkCond (db : DB) (ft fv : String) (r : Row) : Bool :=
  if ft == "esp_ble_id" then
    match getStr r "device_name" with
    | some d => (espDeviceNames db fv).contains d
    | none => false
  else r.lookup ft == some (Cell.str fv)

/-- The `{cond}` fragment shared by the two nearest-row probes
(lines 130-156): for esp_ble_id, membership of m.device_name in the
device-name subquery; otherwise a direct column equality. -/
def nearestCond (db : DB) (ft fv : String) (r : Row) : Bool :=
  if ft == "esp_ble_id" then
    match getStr r "device_name" with
    | some d => (espDeviceNames db fv).contains d
    | none => false
  else r.lookup ft == some (Cell.str fv)

/-- WHERE clause (filter part) of the main fetch (lines 166-188): for
esp_ble_id, the device CTE join; otherwise a direct column equality. -/
def fetchCond (db : DB) (ft fv : String) (r : Row) : Bool :=
  if ft == "esp_ble_id" then
    match getStr r "device_name" with
    | some d => (espDeviceNames db fv).contains d
    | none => false
  else r.lookup ft == some (Cell.str fv)

/-- `updated_at BETWEEN :start_date AND :end_date` (NULL never matches). -/
def inWindow (s e : ℤ) (r : Row) : Bool :=
  match sqlTs r with
  | some t => decide (s ≤ t) && decide (t ≤ e)
  | none => false

/-- The non-NULL `updated_at` values of the rows matching a condition (what
the MIN/MAX aggregates and the nearest-row probes range over). -/
def matchingTs (db : DB) (c : Row → Bool) : List ℤ :=
  (db.metrics.filter c).filterMap sqlTs

/-- SQL MIN over a list of values (NULL on the empty set). -/
def tsMin : List ℤ → Option ℤ
  | [] => none
  | t :: rest =>
      some (match tsMin rest with
            | none => t
            | some m => min t m)

/-- SQL MAX over a list of values (NULL on the empty set). -/
def tsMax : List ℤ → Option ℤ
  | [] => none
  | t :: rest =>
      some (match tsMax rest with
            | none => t
            | some m => max t m)

/-- Ascending order on timestamps (`ORDER BY updated_at ASC`). -/
def intLe (a b : ℤ) : Prop := a ≤ b

/-- Descending order on timestamps (`ORDER BY updated_at DESC`). -/
def intGe (a b : ℤ) : Prop := b ≤ a

instance : DecidableRel intLe := fun a b => inferInstanceAs (Decidable (a ≤ b))
instance : DecidableRel intGe := fun a b => inferInstanceAs (Decidable (b ≤ a))
instance : IsTotal ℤ intLe := ⟨fun a b => le_total a b⟩
instance : IsTrans ℤ intLe := ⟨fun _ _ _ h h2 => le_trans h h2⟩
instance : IsTotal ℤ intGe := ⟨fun a b => le_total b a⟩
instance : IsTrans ℤ intGe := ⟨fun _ _ _ h h2 => le_trans h2 h⟩

/-- Lines 92-100: run the range query and convert both aggregate values to
local naive time; `(None, None)` when the filter has no timestamped rows
(`if row and row[0] and row[1]`). -/
def rangeRes (db : DB) (ft fv : String) : Option ℤ × Option ℤ :=
  match tsMin (matchingTs db (rangeCond db ft fv)),
        tsMax (matchingTs db (rangeCond db ft fv)) with
  | some a, some b => (some (utcToLa a), some (utcToLa b))
  | _, _ => (none, none)

/-- Lines 123-124: the EXISTS probe for the window. -/
def hasData (db : DB) (ft fv : String) (s e : ℤ) : Bool :=
  db.metrics.any (fun r => checkCond db ft fv r && inWindow s e r)

/-- Lines 130-144: `... AND m.updated_at < :start_date ORDER BY m.updated_at
DESC LIMIT 1` — the single nearest timestamp strictly before the window
start (UTC; the caller converts). -/
def nearestBefore (db : DB) (ft fv : String) (s : ℤ) : Option ℤ :=
  (List.insertionSort intGe
    ((matchingTs db (nearestCond db ft fv)).filter (fun t => decide (t < s)))).head?

/-- Lines 147-161: `... AND m.updated_at > :end_date ORDER BY m.updated_at
ASC LIMIT 1` — the single nearest timestamp strictly after the window end. -/
def nearestAfter (db : DB) (ft fv : String) (e : ℤ) : Option ℤ :=
  (List.insertionSort intLe
    ((matchingTs db (nearestCond db ft fv)).filter (fun t => decide (e < t)))).head?

/-- The sort key pandas and the fetch ORDER BY use: the row's `updated_at`
datetime (0 for a row without one; every sorted row has one in practice). -/
def tsKey (r : Row) : ℤ :=
  match r.lookup "updated_at" with
  | some (Cell.ts t) => t
  | _ => 0

/-- Row order by ascending timestamp. -/
def rowLe (a b : Row) : Prop := tsKey a ≤ tsKey b

/-- Row order by descending timestamp. -/
def rowGe (a b : Row) : Prop := tsKey b ≤ tsKey a

instance : DecidableRel rowLe := fun a b => inferInstanceAs (Decidable (tsKey a ≤ tsKey b))
instance : DecidableRel rowGe := fun a b => inferInstanceAs (Decidable (tsKey b ≤ tsKey a))
instance : IsTotal Row rowLe := ⟨fun a b => le_total (tsKey a) (tsKey b)⟩
instance : IsTrans Row rowLe := ⟨fun _ _ _ h h2 => le_trans h h2⟩
instance : IsTotal Row rowGe := ⟨fun a b => le_total (tsKey b) (tsKey a)⟩
instance : IsTrans Row rowGe := ⟨fun _ _ _ h h2 => le_trans h2 h⟩

/-- Direction of the fetch's ORDER BY clause. -/
inductive Order where
  | asc
  | desc
deriving DecidableEq

/-- Syntactic shape of the main fetch statement: whether it resolves the
filter through the device join, its ORDER BY direction, and its LIMIT. -/
structure FetchQuery where
  usesDeviceJoin : Bool
  order : Order
  limit : ℕ
deriving DecidableEq

/-- Lines 166-188: both branches build `... ORDER BY updated_at DESC LIMIT
60000`; the esp_ble_id branch goes through the device CTE join. -/
def mkFetchQuery (ft : String) : FetchQuery :=
  if ft == "esp_ble_id" then ⟨true, Order.desc, 60000⟩
  else ⟨false, Order.desc, 60000⟩

/-- Sort a result set by the fetch's ORDER BY direction. -/
def evalOrder : Order → DF → DF
  | Order.asc, l => List.insertionSort rowLe l
  | Order.desc, l => List.insertionSort rowGe l

/-- Lines 190-192: execute the main fetch — filter, order, LIMIT. -/
def fetchStage (db : DB) (ft fv : String) (s e : ℤ) : DF :=
  let q := mkFetchQuery ft
  (evalOrder q.order
    (db.metrics.filter (fun r => fetchCond db ft fv r && inWindow s e r))).take q.limit

/-! ### NoDataInWindow (query_manager.py lines 268-287) -/

/-- Zero-pad an integer to two digits (strftime %m / %d). -/
def pad2 (n : ℤ) : String := if n < 10 then "0" ++ toString n else toString n

/-- Zero-pad a year to four digits (strftime %Y). -/
def pad4 (n : ℤ) : String :=
  if n < 10 then "000" ++ toString n
  else if n < 100 then "00" ++ toString n
  else if n < 1000 then "0" ++ toString n
  else toString n

/-- Civil date (year, month, day) of a day number counted from 1970-01-01
(standard proleptic-Gregorian conversion). -/
def civilFromDays (z0 : ℤ) : ℤ × ℤ × ℤ :=
  let z := z0 + 719468
  let era := z.fdiv 146097
  let doe := z - era * 146097
  let yoe := (doe - doe.fdiv 1460 + doe.fdiv 36524 - doe.fdiv 146096).fdiv 365
  let y := yoe + era * 400
  let doy := doe - (365 * yoe + yoe.fdiv 4 - yoe.fdiv 100)
  let mp := (5 * doy + 2).fdiv 153
  let d := doy - (153 * mp + 2).fdiv 5 + 1
  let m := mp + (if mp < 10 then 3 else -9)
  (if m ≤ 2 then y + 1 else y, m, d)

/-- strftime("%Y-%m-%d") of a naive timestamp in epoch seconds. -/
def fmtDate (t : ℤ) : String :=
  let ymd := civilFromDays (t.fdiv dayLen)
  pad4 ymd.1 ++ "-" ++ pad2 ymd.2.1 ++ "-" ++ pad2 ymd.2.2

/-- The fixed message for a filter with no data at all
(`NoDataInWindow.__init__`, earliest or latest None). -/
def noHistoryMsg : String :=
  "No data exists for this user/device at all.\nPossible user mismatch with filter type/value."

/-- The fixed first lines of the message used when data exists outside the
requested window. -/
def outsideWindowMsgHead : String :=
  "No data in requested window.\nData detected in ranges outside your provided range.\n"

/-- `NoDataInWindow.__init__` message building: one fixed message when
either bound is absent; otherwise the outside-window text with the bounds,
plus a nearest-before/nearest-after line when either probe hit. -/
def mkNoDataMsg (earliest latest before after : Option ℤ) : String :=
  match earliest, latest with
  | some e, some l =>
      let base := outsideWindowMsgHead ++ fmtDate e ++ " to " ++ fmtDate l
      if before.isSome || after.isSome then
        base ++ "\n" ++ String.intercalate ", "
          ((match before with
            | some b => ["nearest before=" ++ fmtDate b]
            | none => []) ++
           (match after with
            | some a => ["nearest after=" ++ fmtDate a]
            | none => []))
      else base
  | _, _ => noHistoryMsg

/-- The structured NoDataInWindow exception: whole-history bounds, nearest
probes (all local naive), and the rendered message. -/
structure NoDataE where
  earliest : Option ℤ
  latest : Option ℤ
  before : Option ℤ
  after : Option ℤ
  msg : String
deriving DecidableEq

/-! ### Normalization (query_manager.py lines 194-243) -/

/-- The frame's column list: the key list of its first row (every row of a
SQL result has the same keys, in the same order). -/
def dfColumns (df : DF) : List String := (df.head?.getD []).map Prod.fst

/-- Map every value of a frame-row in place, leaving the keys unchanged —
the shape of every per-column pandas assignment below. -/
def mapVals (g : String → Cell → Cell) (r : Row) : Row :=
  r.map (fun p => (p.1, g p.1 p.2))

/-- Line 199: lower-case every column name. -/
def lowerCols (df : DF) : DF :=
  df.map (fun r => r.map (fun p => (strLower p.1, p.2)))

/-- `df.rename(columns={src: dst})`: rename every column called src. -/
def renameCol (src dst : String) (df : DF) : DF :=
  df.map (fun r => r.map (fun p => (if p.1 == src then dst else p.1, p.2)))

/-- Lines 201-213: the timestamp alias map, in source (dict) order. -/
def aliasList : List (String × String) :=
  [("updatedat", "updated_at"), ("update_at", "updated_at"),
   ("timestamp", "updated_at"), ("ts", "updated_at"),
   ("time", "updated_at"), ("created_at", "updated_at")]

/-- Lines 201-213: when `updated_at` is absent, rename the first alias
present in the columns (then break). -/
def applyAlias (df : DF) : DF :=
  if (dfColumns df).contains "updated_at" then df
  else
    match aliasList.find? (fun p => (dfColumns df).contains p.1) with
    | some p => renameCol p.1 p.2 df
    | none => df

/-- The largest/smallest epoch second representable as a pandas Timestamp
(64-bit nanoseconds). -/
def pdTsBound : ℤ := 9223372036

/-- `pd.to_datetime(..., errors="coerce", utc=True)` on one cell: a datetime
within the pandas Timestamp range parses to itself; NULLs, non-datetime
values and out-of-range datetimes coerce to NaT. -/
def parseTsCell : Cell → Cell
  | Cell.ts t => if -pdTsBound ≤ t ∧ t ≤ pdTsBound then Cell.ts t else Cell.null
  | _ => Cell.null

/-- Line 219: parse the `updated_at` column. -/
def parseCol (df : DF) : DF :=
  df.map (mapVals (fun k v => if k == "updated_at" then parseTsCell v else v))

/-- Line 220: `df.dropna(subset=["updated_at"])`. -/
def dropNaRows (df : DF) : DF :=
  df.filter (fun r =>
    match r.lookup "updated_at" with
    | some (Cell.ts _) => true
    | _ => false)

/-- Line 225: `df.sort_values("updated_at")` — ascending by timestamp. -/
def sortAsc (df : DF) : DF := List.insertionSort rowLe df

/-- Line 226: the columns whose value is NaN in every row. -/
def allNullCols (df : DF) : List String :=
  (dfColumns df).filter (fun c => df.all (fun r => r.lookup c == some Cell.null))

/-- Line 226: `df.dropna(axis=1, how="all")`. -/
def dropAllNullCols (df : DF) : DF :=
  let bad := allNullCols df
  df.map (fun r => r.filter (fun p => !(bad.contains p.1)))

/-- Line 229: convert the timestamp column to tz-naive LA time. -/
def tzConvertCol (df : DF) : DF :=
  df.map (mapVals (fun k v =>
    if k == "updated_at" then
      match v with
      | Cell.ts t => Cell.ts (utcToLa t)
      | c => c
    else v))

/-- `fan_tach_rpm / 100.0` on one cell (NaN stays NaN). -/
def divCell100 : Cell → Cell
  | Cell.num q => Cell.num (q / 100)
  | c => c

/-- Lines 232-233: divide the tachometer column by 100 when present. -/
def fanStage (df : DF) : DF :=
  if (dfColumns df).contains "fan_tach_rpm" then
    df.map (mapVals (fun k v => if k == "fan_tach_rpm" then divCell100 v else v))
  else df

/-- Round half to even at integer precision (numpy/pandas `.round`),
written over the numerator and denominator so that the kernel can evaluate
it: `f` is the floor, `rem/den` the fractional part. -/
def roundHalfEven (q : ℚ) : ℤ :=
  let f := q.num.fdiv q.den
  let rem := q.num - f * q.den
  if 2 * rem < (q.den : ℤ) then f
  else if (q.den : ℤ) < 2 * rem then f + 1
  else if f % 2 = 0 then f else f + 1

/-- `.round(3)`. -/
def round3 (q : ℚ) : ℚ := (roundHalfEven (q * 1000) : ℚ) / 1000

/-- `(c * 9.0 / 5.0 + 32.0).round(3)` on one cell (NaN stays NaN). -/
def convCell : Cell → Cell
  | Cell.num q => Cell.num (round3 (q * 9 / 5 + 32))
  | c => c

/-- The Celsius columns of a frame (names ending in `_temp_c`). -/
def tempColsOf (df : DF) : List String :=
  (dfColumns df).filter (fun c => strEndsWith c "_temp_c")

/-- The Fahrenheit name of a Celsius column
(`col.replace("_temp_c", "_temp_f")`). -/
def fahrName (c : String) : String := strReplace c "_temp_c" "_temp_f"

/-- Lines 235-241: when units are "f", append one converted Fahrenheit
column per Celsius column (in column order), then drop the Celsius columns. -/
def tempStage (units : String) (df : DF) : DF :=
  let tempCols := tempColsOf df
  if units == "f" then
    let withNew := df.map (fun r =>
      r ++ tempCols.map (fun c => (fahrName c, convCell ((r.lookup c).getD Cell.null))))
    if tempCols.isEmpty then withNew
    else withNew.map (fun r => r.filter (fun p => !(tempCols.contains p.1)))
  else df

/-- Lines 231-241: the unit-normalization block. -/
def unitStage (units : String) (df : DF) : DF := tempStage units (fanStage df)

/-- The log line of line 216, naming the columns present. -/
def missingTsMsg (cols : List String) : String :=
  "No metrics: \x27updated_at\x27 column not found. Columns: " ++ toString cols

/-- Lines 194-243: everything run_query does to the fetched frame.  Every
early exit returns an EMPTY frame (with a log line) rather than raising:
empty fetch, unrecognizable timestamp column, all timestamps unparsable. -/
def postFetch (units : String) (df : DF) : Except NoDataE DF × List String :=
  if df.isEmpty then
    (Except.ok [], ["No metrics: query returned 0 rows (unexpected)."])
  else
    let df2 := applyAlias (lowerCols df)
    if !((dfColumns df2).contains "updated_at") then
      (Except.ok [], [missingTsMsg (dfColumns df2)])
    else
      let df3 := dropNaRows (parseCol df2)
      if df3.isEmpty then
        (Except.ok [], ["No metrics: all timestamps invalid (NaT) or filtered out."])
      else
        (Except.ok (unitStage units (tzConvertCol (dropAllNullCols (sortAsc df3)))), [])

/-- `QueryManager.run_query`, with the database state at probe time
(`dbMeta`: range query, EXISTS probe, nearest-row probes) separated from the
state at fetch time (`dbFetch`) — each round trip reads the live database,
which can change between them.  Dates are LA-calendar day numbers; `units`
is the manager's temperature setting ("f" by default).  Returns the result
or the structured NoDataInWindow, plus the log lines emitted. -/
def runQueryAt (dbMeta dbFetch : DB) (ft fv : String) (startDay endDay : ℤ)
    (units : String) : Except NoDataE DF × List String :=
  let s := windowStartUtc startDay
  let e := windowEndUtc endDay
  let range := rangeRes dbMeta ft fv
  if hasData dbMeta ft fv s e then
    postFetch units (fetchStage dbFetch ft fv s e)
  else
    let b := (nearestBefore dbMeta ft fv s).map utcToLa
    let a := (nearestAfter dbMeta ft fv e).map utcToLa
    (Except.error { earliest := range.1, latest := range.2, before := b, after := a,
                    msg := mkNoDataMsg range.1 range.2 b a }, [])

/-- `run_query` against one (unchanging) database state. -/
def run_query (db : DB) (ft fv : String) (startDay endDay : ℤ) (units : String) :
    Except NoDataE DF × List String :=
  runQueryAt db db ft fv startDay endDay units

/-! ### Specification-side predicates (used to state the claims) -/

/-- `m` is the minimum of the list (spec-side reading of SQL MIN). -/
def IsMinOf (m : ℤ) (l : List ℤ) : Prop := m ∈ l ∧ ∀ x ∈ l, m ≤ x

/-- `m` is the maximum of the list (spec-side reading of SQL MAX). -/
def IsMaxOf (m : ℤ) (l : List ℤ) : Prop := m ∈ l ∧ ∀ x ∈ l, x ≤ m

/-- `o` is the single nearest value of `l` strictly below `s` (absent when
no value lies below). -/
def IsNearestBelow (s : ℤ) (l : List ℤ) (o : Option ℤ) : Prop :=
  match o with
  | none => ∀ t ∈ l, ¬t < s
  | some b => b ∈ l ∧ b < s ∧ ∀ t ∈ l, t < s → t ≤ b

/-- `o` is the single nearest value of `l` strictly above `e` (absent when
no value lies above). -/
def IsNearestAbove (e : ℤ) (l : List ℤ) (o : Option ℤ) : Prop :=
  match o with
  | none => ∀ t ∈ l, ¬e < t
  | some a => a ∈ l ∧ e < a ∧ ∀ t ∈ l, e < t → a ≤ t

/-! ### Helper lemmas about association-list rows -/

theorem lookup_mapVals (g : String → Cell → Cell) (r : Row) (k : String) :
    (mapVals g r).lookup k = (r.lookup k).map (g k) := by
  induction r with
  | nil => rfl
  | cons p r ih =>
      simp only [mapVals, List.map_cons, List.lookup]
      by_cases h : k = p.1
      · subst h; simp
      · have hb : (k == p.1) = false := by simpa using h
        simpa [hb, mapVals] using ih

theorem keys_mapVals (g : String → Cell → Cell) (r : Row) :
    (mapVals g r).map Prod.fst = r.map Prod.fst := by
  simp [mapVals, List.map_map, Function.comp]

theorem lookup_append_some {l1 l2 : Row} {k : String} {v : Cell}
    (h : l1.lookup k = some v) : (l1 ++ l2).lookup k = some v := by
  induction l1 with
  | nil => simp [List.lookup] at h
  | cons p l ih =>
      simp only [List.lookup, List.cons_append] at h ⊢
      cases hb : (k == p.1) with
      | true => simpa [hb] using h
      | false =>
          rw [hb] at h
          simpa [hb] using ih h

theorem lookup_append_none {l1 l2 : Row} {k : String}
    (h : l1.lookup k = none) : (l1 ++ l2).lookup k = l2.lookup k := by
  induction l1 with
  | nil => rfl
  | cons p l ih =>
      simp only [List.lookup, List.cons_append] at h ⊢
      cases hb : (k == p.1) with
      | true => rw [hb] at h; exact absurd h (by simp)
      | false =>
          rw [hb] at h
          simpa [hb] using ih h

theorem lookup_filter_of_key {f : String × Cell → Bool} {k : String} (r : Row)
    (h : ∀ c : Cell, f (k, c) = true) : (r.filter f).lookup k = r.lookup k := by
  induction r with
  | nil => rfl
  | cons p r ih =>
      by_cases hk : k = p.1
      · have hp : f p = true := by
          rcases p with ⟨k0, c0⟩
          cases hk
          exact h c0
        simp [List.filter, hp, List.lookup, ih]
      · have hb : (k == p.1) = false := by simpa using hk
        cases hp : f p with
        | true => simp [List.filter, hp, List.lookup, hb, ih]
        | false => simp [List.filter, hp, List.lookup, hb, ih]

theorem lookup_filter_none_of_key {f : String × Cell → Bool} {k : String} (r : Row)
    (h : ∀ c : Cell, f (k, c) = false) : (r.filter f).lookup k = none := by
  induction r with
  | nil => rfl
  | cons p r ih =>
      by_cases hk : k = p.1
      · have hp : f p = false := by
          rcases p with ⟨k0, c0⟩
          cases hk
          exact h c0
        simp [List.filter, hp, ih]
      · have hb : (k == p.1) = false := by simpa using hk
        cases hp : f p with
        | true => simp [List.filter, hp, List.lookup, hb, ih]
        | false => simp [List.filter, hp, ih]

theorem lookup_none_of_keys {r : Row} {k : String}
    (h : (r.map Prod.fst).contains k = false) : r.lookup k = none := by
  induction r with
  | nil => rfl
  | cons p r ih =>
      simp only [List.map_cons, List.contains_cons, Bool.or_eq_false_iff] at h
      have hb : (k == p.1) = false := h.1
      simp [List.lookup, hb, ih h.2]

/-! ### Helper lemmas about sortedness and aggregates -/

theorem sorted_map_of_mem {l : List Row} {g : Row → Row}
    (h : ∀ a ∈ l, ∀ b ∈ l, rowLe a b → rowLe (g a) (g b))
    (hs : List.Sorted rowLe l) : List.Sorted rowLe (l.map g) := by
  induction l with
  | nil => simp
  | cons a t ih =>
      rw [List.sorted_cons] at hs
      rw [List.map_cons, List.sorted_cons]
      refine ⟨?_, ih (fun x hx y hy => h x (by simp [hx]) y (by simp [hy])) hs.2⟩
      intro b hb
      rcases List.mem_map.mp hb with ⟨b0, hb0, rfl⟩
      exact h a (by simp) b0 (by simp [hb0]) (hs.1 b0 hb0)

theorem tsMin_isMin {l : List ℤ} {m : ℤ} (h : tsMin l = some m) : IsMinOf m l := by
  induction l generalizing m with
  | nil => simp [tsMin] at h
  | cons t rest ih =>
      simp only [tsMin] at h
      cases hr : tsMin rest with
      | none =>
          rw [hr] at h
          have : t = m := by simpa using h
          subst this
          have hrest : rest = [] := by
            cases rest with
            | nil => rfl
            | cons a b => simp [tsMin] at hr
          subst hrest
          exact ⟨by simp, by simp⟩
      | some m0 =>
          rw [hr] at h
          have hm : m = min t m0 := by simpa using h.symm
          rcases ih hr with ⟨hmem, hall⟩
          subst hm
          rcases le_total t m0 with hle | hle
          · refine ⟨by simp [min_eq_left hle], ?_⟩
            intro x hx
            rcases List.mem_cons.mp hx with rfl | hx
            · exact min_le_left _ _
            · exact le_trans (min_le_right _ _) (hall x hx)
          · refine ⟨?_, ?_⟩
            · rw [min_eq_right hle]; exact List.mem_cons_of_mem _ hmem
            · intro x hx
              rcases List.mem_cons.mp hx with rfl | hx
              · exact min_le_left _ _
              · exact le_trans (min_le_right _ _) (hall x hx)

theorem tsMax_isMax {l : List ℤ} {m : ℤ} (h : tsMax l = some m) : IsMaxOf m l := by
  induction l generalizing m with
  | nil => simp [tsMax] at h
  | cons t rest ih =>
      simp only [tsMax] at h
      cases hr : tsMax rest with
      | none =>
          rw [hr] at h
          have : t = m := by simpa using h
          subst this
          have hrest : rest = [] := by
            cases rest with
            | nil => rfl
            | cons a b => simp [tsMax] at hr
          subst hrest
          exact ⟨by simp, by simp⟩
      | some m0 =>
          rw [hr] at h
          have hm : m = max t m0 := by simpa using h.symm
          rcases ih hr with ⟨hmem, hall⟩
          subst hm
          rcases le_total t m0 with hle | hle
          · refine ⟨?_, ?_⟩
            · rw [max_eq_right hle]; exact List.mem_cons_of_mem _ hmem
            · intro x hx
              rcases List.mem_cons.mp hx with rfl | hx
              · exact le_max_left _ _
              · exact le_trans (hall x hx) (le_max_right _ _)
          · refine ⟨by simp [max_eq_left hle], ?_⟩
            intro x hx
            rcases List.mem_cons.mp hx with rfl | hx
            · exact le_max_left _ _
            · exact le_trans (hall x hx) (le_max_right _ _)

theorem tsMin_isSome {l : List ℤ} (h : l ≠ []) : ∃ m, tsMin l = some m := by
  cases l with
  | nil => exact absurd rfl h
  | cons t rest => exact ⟨_, rfl⟩

theorem tsMax_isSome {l : List ℤ} (h : l ≠ []) : ∃ m, tsMax l = some m := by
  cases l with
  | nil => exact absurd rfl h
  | cons t rest => exact ⟨_, rfl⟩

theorem insertionSort_eq_nil_iff {α : Type} (r : α → α → Prop) [DecidableRel r]
    {l : List α} : List.insertionSort r l = [] ↔ l = [] := by
  constructor
  · intro h
    have := List.perm_insertionSort r l
    rw [h] at this
    exact this.symm.eq_nil
  · intro h; subst h; rfl

theorem head_sortGe_isMax {l : List ℤ} {m : ℤ}
    (h : (List.insertionSort intGe l).head? = some m) : IsMaxOf m l := by
  cases hs : List.insertionSort intGe l with
  | nil => rw [hs] at h; simp at h
  | cons a t =>
      rw [hs] at h
      have ha : a = m := by simpa using h
      subst ha
      have hperm := List.perm_insertionSort intGe l
      rw [hs] at hperm
      have hsort := List.sorted_insertionSort intGe l
      rw [hs] at hsort
      constructor
      · exact hperm.mem_iff.mp (by simp)
      · intro x hx
        rcases List.mem_cons.mp (hperm.mem_iff.mpr hx) with rfl | hx2
        · exact le_refl _
        · exact List.rel_of_sorted_cons hsort x hx2

theorem head_sortLe_isMin {l : List ℤ} {m : ℤ}
    (h : (List.insertionSort intLe l).head? = some m) : IsMinOf m l := by
  cases hs : List.insertionSort intLe l with
  | nil => rw [hs] at h; simp at h
  | cons a t =>
      rw [hs] at h
      have ha : a = m := by simpa using h
      subst ha
      have hperm := List.perm_insertionSort intLe l
      rw [hs] at hperm
      have hsort := List.sorted_insertionSort intLe l
      rw [hs] at hsort
      constructor
      · exact hperm.mem_iff.mp (by simp)
      · intro x hx
        rcases List.mem_cons.mp (hperm.mem_iff.mpr hx) with rfl | hx2
        · exact le_refl _
        · exact List.rel_of_sorted_cons hsort x hx2

theorem head_sort_none {α : Type} (r : α → α → Prop) [DecidableRel r] {l : List α}
    (h : (List.insertionSort r l).head? = none) : l = [] := by
  rw [List.head?_eq_none_iff] at h
  exact (insertionSort_eq_nil_iff r).mp h

/-! ### C5 — window validation -/

theorem gvdrEq (s? e? : Option DateInput) (td d1 d2 : ℤ) :
    getValidatedDateRange s? e? td d1 d2 =
      (if resolvedEnd s? e? td d2 ≤ resolvedStart s? e? td d1 then
        Except.error "End date must be after start date."
      else if (resolvedEnd s? e? td d2 - resolvedStart s? e? td d1).fdiv usPerDay > 7 then
        Except.error "Date range cannot exceed 7 days."
      else Except.ok (resolvedStart s? e? td d1, resolvedEnd s? e? td d2)) := rfl

/-- C5 counterexample: a window whose resolved span is 7 days and 12 hours —
strictly more than 7 days — passes validation, because `(end - start).days`
floors to 7; the claim "validation raises ... when the resolved span exceeds
7 days" is false of the code. -/
theorem c5_span_check_counterexample :
    getValidatedDateRange (some ⟨0, some 0⟩) (some ⟨7, some 43200000000⟩) 0 0 0 =
      Except.ok (0, 648000000000) ∧ (648000000000 : ℤ) - 0 > 7 * usPerDay := by
  exact ⟨rfl, by decide⟩

/-- C5 (amended): after blank-fill defaulting and parsing, validation
rejects a resolved end not strictly after the resolved start with a
descriptive error; it rejects a span whose floor in whole days exceeds 7
(that is, a span of at least 8 days) with a descriptive error; every window
with end strictly after start and span at most 7 days passes and is
returned. -/
theorem c5_window_validation (s? e? : Option DateInput) (td d1 d2 : ℤ) :
    (resolvedEnd s? e? td d2 ≤ resolvedStart s? e? td d1 →
      getValidatedDateRange s? e? td d1 d2 =
        Except.error "End date must be after start date.") ∧
    (resolvedStart s? e? td d1 < resolvedEnd s? e? td d2 →
      (resolvedEnd s? e? td d2 - resolvedStart s? e? td d1).fdiv usPerDay > 7 →
      getValidatedDateRange s? e? td d1 d2 =
        Except.error "Date range cannot exceed 7 days.") ∧
    (resolvedStart s? e? td d1 < resolvedEnd s? e? td d2 →
      resolvedEnd s? e? td d2 - resolvedStart s? e? td d1 ≤ 7 * usPerDay →
      getValidatedDateRange s? e? td d1 d2 =
        Except.ok (resolvedStart s? e? td d1, resolvedEnd s? e? td d2)) := by
  refine ⟨?_, ?_, ?_⟩
  · intro h
    rw [gvdrEq, if_pos h]
  · intro hlt hdays
    rw [gvdrEq, if_neg (not_le.mpr hlt), if_pos hdays]
  · intro hlt hspan
    have hdays : (resolvedEnd s? e? td d2 - resolvedStart s? e? td d1).fdiv usPerDay ≤ 7 := by
      rw [Int.fdiv_eq_ediv _ (by decide)]
      have h2 : (7 * usPerDay) / usPerDay = 7 := by decide
      calc (resolvedEnd s? e? td d2 - resolvedStart s? e? td d1) / usPerDay
          ≤ (7 * usPerDay) / usPerDay := Int.ediv_le_ediv (by decide) hspan
        _ = 7 := h2
    rw [gvdrEq, if_neg (not_le.mpr hlt), if_neg (not_lt.mpr hdays)]

/-- C5 witness: a one-day window passes validation. -/
theorem c5_window_validation_witness :
    getValidatedDateRange (some ⟨0, some 0⟩) (some ⟨1, some 0⟩) 0 0 0 =
      Except.ok (0, 86400000000) := by
  have h := (c5_window_validation (some ⟨0, some 0⟩) (some ⟨1, some 0⟩) 0 0 0).2.2
    (by decide) (by decide)
  simpa using h

/-! ### C8 — disconnect teardown -/

/-- C8 counterexample: with a raising engine.dispose(), disconnect
propagates the exception and the forwarder/transport/client steps never run
(the state still holds them all); "an exception in one step does not prevent
the next step from running" is false of the code. -/
theorem c8_best_effort_counterexample :
    disconnect ⟨some ⟨true⟩, some ⟨false⟩, some ⟨false⟩, some ⟨false⟩⟩ =
      Except.error ("engine", ⟨some ⟨true⟩, some ⟨false⟩, some ⟨false⟩, some ⟨false⟩⟩) ∧
    (Option.some (Closeable.mk false)).isSome = true := by
  exact ⟨rfl, rfl⟩

/-- C8 (amended): when no step raises, disconnect runs its teardown steps in
the order engine → forwarder → transport → client (the trace is a sublist of
that canonical order), leaves every attribute None, and a second call is a
no-op returning the same Disconnected state with no steps run; but the steps
are not individually guarded, so an exception in one step aborts the
remaining steps (see the counterexample). -/
theorem c8_disconnect_order_and_idempotence (s s2 : ConnState) (tr : List String) :
    disconnect s = Except.ok (s2, tr) →
      s2 = disconnectedState ∧
      disconnect s2 = Except.ok (disconnectedState, []) ∧
      List.Sublist tr ["engine", "forwarder", "transport", "client"] := by
  intro h
  rcases s with ⟨_ | ⟨_ | _⟩, _ | ⟨_ | _⟩, _ | ⟨_ | _⟩, _ | ⟨_ | _⟩⟩ <;>
    simp only [disconnect, discForwarder, discTransport, discClient] at h <;>
    simp at h <;>
    obtain ⟨rfl, rfl⟩ := h <;> exact ⟨by decide, by decide, by decide⟩

/-- C8 witness: disconnecting a fully-populated healthy connector. -/
theorem c8_disconnect_witness :
    disconnectedState = disconnectedState ∧
    disconnect disconnectedState = Except.ok (disconnectedState, []) ∧
    List.Sublist ["engine", "forwarder", "transport", "client"]
      ["engine", "forwarder", "transport", "client"] := by
  exact c8_disconnect_order_and_idempotence
    ⟨some ⟨false⟩, some ⟨false⟩, some ⟨false⟩, some ⟨false⟩⟩ disconnectedState
    ["engine", "forwarder", "transport", "client"] (by decide)

/-! ### C9 — per-connection channel failure is local -/

/-- C9: when channel creation fails for an accepted connection, its socket
is closed (recorded in closedSockets) and the remaining events are served
exactly as they would have been without the failure — the loop neither
terminates nor propagates anything (runAcceptLoop is a total function into
LoopResult). -/
theorem c9_channel_failure_isolated (c : AcceptedConn) (evs : List AcceptEvent) :
    c.chanFails = true →
    runAcceptLoop (AcceptEvent.conn c :: evs) =
      ⟨c.id :: (runAcceptLoop evs).closedSockets, (runAcceptLoop evs).handlers⟩ := by
  intro h
  simp [runAcceptLoop, h]

/-- C9 witness: a failing connection followed by a successful one — the
failing socket is closed and the later connection is still served. -/
theorem c9_channel_failure_isolated_witness :
    (AcceptedConn.mk 7 true).chanFails = true ∧
    runAcceptLoop [AcceptEvent.conn ⟨7, true⟩, AcceptEvent.conn ⟨8, false⟩] =
      ⟨7 :: (runAcceptLoop [AcceptEvent.conn ⟨8, false⟩]).closedSockets,
        (runAcceptLoop [AcceptEvent.conn ⟨8, false⟩]).handlers⟩ := by
  exact ⟨rfl, c9_channel_failure_isolated ⟨7, true⟩ [AcceptEvent.conn ⟨8, false⟩] rfl⟩

/-! ### C6 — two-step resolution for the secondary identifier -/

theorem espCondIff (db : DB) (fv : String) (r : Row) :
    rangeCond db "esp_ble_id" fv r = true ↔
      ∃ d, getStr r "device_name" = some d ∧ d ∈ espDeviceNames db fv := by
  simp only [rangeCond, beq_self_eq_true, if_true]
  cases hd : getStr r "device_name" with
  | none => simp
  | some d => simp [List.elem_iff]

/-- C6: for the secondary device identifier, the range query, the existence
probe, the nearest-row probes and the main fetch each accept a metrics row
exactly when its device_name lies in the device-name set resolved from the
device table for that identifier — never by a direct column match on the
metrics table (a row whose own esp_ble_id cell equals the value is not
matched unless the device table maps it). -/
theorem c6_esp_two_step_resolution (db : DB) (fv : String) (r : Row) :
    (rangeCond db "esp_ble_id" fv r = true ↔
      ∃ d, getStr r "device_name" = some d ∧ d ∈ espDeviceNames db fv) ∧
    (checkCond db "esp_ble_id" fv r = true ↔
      ∃ d, getStr r "device_name" = some d ∧ d ∈ espDeviceNames db fv) ∧
    (nearestCond db "esp_ble_id" fv r = true ↔
      ∃ d, getStr r "device_name" = some d ∧ d ∈ espDeviceNames db fv) ∧
    (fetchCond db "esp_ble_id" fv r = true ↔
      ∃ d, getStr r "device_name" = some d ∧ d ∈ espDeviceNames db fv) ∧
    (mkFetchQuery "esp_ble_id").usesDeviceJoin = true := by
  refine ⟨espCondIff db fv r, ?_, ?_, ?_, rfl⟩
  · show rangeCond db "esp_ble_id" fv r = true ↔ _
    exact espCondIff db fv r
  · show rangeCond db "esp_ble_id" fv r = true ↔ _
    exact espCondIff db fv r
  · show rangeCond db "esp_ble_id" fv r = true ↔ _
    exact espCondIff db fv r

/-! ### C4 — filter with no history at all -/

theorem head_append_ne (x : String) : outsideWindowMsgHead ++ x ≠ noHistoryMsg := by
  intro h
  have h2 : (outsideWindowMsgHead ++ x).data = noHistoryMsg.data := congrArg String.data h
  rw [String.data_append] at h2
  have h3 := congrArg (fun l => l[8]?) h2
  simp only at h3
  rw [List.getElem?_append] at h3
  rw [if_pos (by decide)] at h3
  exact absurd h3 (by decide)

theorem mk_msg_ne (e l : ℤ) (b a : Option ℤ) :
    mkNoDataMsg (some e) (some l) b a ≠ noHistoryMsg := by
  simp only [mkNoDataMsg]
  split <;> intro h <;> simp only [String.append_assoc] at h <;> exact head_append_ne _ h

/-- C4: a filter with zero rows ever makes run_query raise NoDataInWindow
with both bounds absent, both nearest probes absent, and the distinct
"no data at all" message — which differs from every message produced when
both bounds are present (data exists outside the window). -/
theorem c4_no_history (db : DB) (ft fv : String) (sd ed : ℤ) (u : String)
    (hfilter : db.metrics.filter (rangeCond db ft fv) = []) :
    ∃ err : NoDataE, (run_query db ft fv sd ed u).1 = Except.error err ∧
      err.earliest = none ∧ err.latest = none ∧
      err.before = none ∧ err.after = none ∧ err.msg = noHistoryMsg ∧
      ∀ (e l : ℤ) (b a : Option ℤ), mkNoDataMsg (some e) (some l) b a ≠ noHistoryMsg := by
  have hM : matchingTs db (rangeCond db ft fv) = [] := by
    simp [matchingTs, hfilter]
  have hHD : hasData db ft fv (windowStartUtc sd) (windowEndUtc ed) = false := by
    simp only [hasData, List.any_eq_false]
    intro r hr
    have hnotin : r ∉ db.metrics.filter (rangeCond db ft fv) := by
      rw [hfilter]; exact List.not_mem_nil r
    have hrc : rangeCond db ft fv r = false := by
      cases hc : rangeCond db ft fv r with
      | false => rfl
      | true => exact absurd (List.mem_filter.mpr ⟨hr, hc⟩) hnotin
    have hcc : checkCond db ft fv r = false := hrc
    simp [hcc]
  have hRange : rangeRes db ft fv = (none, none) := by
    simp [rangeRes, hM, tsMin, tsMax]
  have hNB : nearestBefore db ft fv (windowStartUtc sd) = none := by
    have hMn : matchingTs db (nearestCond db ft fv) = [] := hM
    simp [nearestBefore, hMn]
  have hNA : nearestAfter db ft fv (windowEndUtc ed) = none := by
    have hMn : matchingTs db (nearestCond db ft fv) = [] := hM
    simp [nearestAfter, hMn]
  have hres : (run_query db ft fv sd ed u).1 = Except.error
      { earliest := none, latest := none, before := none, after := none,
        msg := noHistoryMsg } := by
    simp only [run_query, runQueryAt, hHD, Bool.false_eq_true, if_false]
    simp [hRange, hNB, hNA, mkNoDataMsg]
  exact ⟨_, hres, rfl, rfl, rfl, rfl, rfl, mk_msg_ne⟩

/-- C4 witness: an empty database. -/
theorem c4_no_history_witness :
    ∃ err : NoDataE, (run_query ⟨[], []⟩ "device_name" "d" 0 0 "f").1 = Except.error err ∧
      err.earliest = none ∧ err.latest = none ∧
      err.before = none ∧ err.after = none ∧ err.msg = noHistoryMsg ∧
      ∀ (e l : ℤ) (b a : Option ℤ), mkNoDataMsg (some e) (some l) b a ≠ noHistoryMsg :=
  c4_no_history ⟨[], []⟩ "device_name" "d" 0 0 "f" rfl

/-! ### C1 — unrecognizable timestamp column -/

/-- C1 counterexample: a fetched frame with no recognizable timestamp column
makes the normalization log the missing-column message and return an EMPTY
ok-result — run_query does not fail with (raise) a required-column-missing
error, contrary to the claim. -/
theorem c1_no_raise_counterexample :
    postFetch "f" [[("foo", Cell.num 1)]] =
      (Except.ok [],
        ["No metrics: \x27updated_at\x27 column not found. Columns: [foo]"]) := by
  decide

/-- C1 (amended): a fetched result whose columns, after lower-casing and
alias renaming, contain no timestamp column makes run_query log a
required-column-missing message naming the columns present and return an
empty result (it does not raise); and a result whose (lower-cased) timestamp
column is spelled "timestamp" (with no earlier alias present) is renamed to
the canonical updated_at name before parsing, sorting and conversion. -/
theorem c1_missing_timestamp_handling :
    (∀ (u : String) (df : DF), df ≠ [] →
      (dfColumns (applyAlias (lowerCols df))).contains "updated_at" = false →
      postFetch u df =
        (Except.ok [], [missingTsMsg (dfColumns (applyAlias (lowerCols df)))])) ∧
    (∀ df : DF,
      (dfColumns (lowerCols df)).contains "updated_at" = false →
      (dfColumns (lowerCols df)).contains "updatedat" = false →
      (dfColumns (lowerCols df)).contains "update_at" = false →
      (dfColumns (lowerCols df)).contains "timestamp" = true →
      applyAlias (lowerCols df) = renameCol "timestamp" "updated_at" (lowerCols df)) := by
  constructor
  · intro u df hne hcols
    simp only [postFetch]
    rw [if_neg (by simp [List.isEmpty_iff, hne])]
    rw [if_pos (show (!(dfColumns (applyAlias (lowerCols df))).contains "updated_at") = true by
      rw [hcols]; rfl)]
  · intro df h1 h2 h3 h4
    simp only [applyAlias, h1, aliasList, Bool.false_eq_true, if_false, List.find?, h2, h3, h4]

/-- C1 witness: a frame with only a "Foo" column takes the logged-empty
path; a frame with a "Timestamp" column is renamed. -/
theorem c1_missing_timestamp_handling_witness :
    postFetch "f" [[("Foo", Cell.num 1)]] =
      (Except.ok [], [missingTsMsg (dfColumns (applyAlias (lowerCols [[("Foo", Cell.num 1)]])))]) ∧
    applyAlias (lowerCols [[("Timestamp", Cell.ts 5)]]) =
      renameCol "timestamp" "updated_at" (lowerCols [[("Timestamp", Cell.ts 5)]]) := by
  exact ⟨c1_missing_timestamp_handling.1 "f" _ (by decide) (by rfl),
    c1_missing_timestamp_handling.2 _ (by rfl) (by rfl) (by rfl) (by rfl)⟩

/-! ### C10 — probe true but empty or unparsable fetch -/

/-- C10: when the existence probe (against the probe-time database state)
reports data but the bounded fetch (against the fetch-time state) returns
zero rows, or every fetched row's timestamp drops out of
dropna(parse(updated_at)), run_query returns an empty ok-result and raises
neither NoDataInWindow nor any other error. -/
theorem c10_probe_fetch_mismatch (dbMeta dbFetch : DB) (ft fv : String) (sd ed : ℤ)
    (u : String)
    (hprobe : hasData dbMeta ft fv (windowStartUtc sd) (windowEndUtc ed) = true)
    (hfetch : fetchStage dbFetch ft fv (windowStartUtc sd) (windowEndUtc ed) = [] ∨
      dropNaRows (parseCol (applyAlias (lowerCols
        (fetchStage dbFetch ft fv (windowStartUtc sd) (windowEndUtc ed))))) = []) :
    (runQueryAt dbMeta dbFetch ft fv sd ed u).1 = Except.ok [] := by
  simp only [runQueryAt, hprobe, if_true]
  rcases hfetch with hf | hf
  · rw [hf]; rfl
  · simp only [postFetch]
    split
    · rfl
    · split
      · rfl
      · rw [hf]
        rfl

/-- C10 witness: the probe sees one in-window row, the fetch-time state has
none. -/
theorem c10_probe_fetch_mismatch_witness :
    (runQueryAt ⟨[[("device_name", Cell.str "d"), ("updated_at", Cell.ts 30000)]], []⟩
      ⟨[], []⟩ "device_name" "d" 0 0 "f").1 = Except.ok [] :=
  c10_probe_fetch_mismatch _ _ "device_name" "d" 0 0 "f" (by decide) (Or.inl (by decide))

/-! ### C3 — NoDataInWindow payload when history exists outside the window -/

/-- C3: a false existence probe with nonempty history raises NoDataInWindow
carrying the whole-history MIN (earliest) and MAX (latest) of the filter's
timestamps, the single nearest timestamp strictly before the window start
(absent when none lies before), and the single nearest timestamp strictly
after the window end (absent when none lies after) — all converted to local
naive time. -/
theorem c3_no_data_payload (db : DB) (ft fv : String) (sd ed : ℤ) (u : String)
    (hHD : hasData db ft fv (windowStartUtc sd) (windowEndUtc ed) = false)
    (hM : matchingTs db (rangeCond db ft fv) ≠ []) :
    ∃ err : NoDataE, (run_query db ft fv sd ed u).1 = Except.error err ∧
      (∃ a, err.earliest = some (utcToLa a) ∧
        IsMinOf a (matchingTs db (rangeCond db ft fv))) ∧
      (∃ b, err.latest = some (utcToLa b) ∧
        IsMaxOf b (matchingTs db (rangeCond db ft fv))) ∧
      (∃ o, err.before = Option.map utcToLa o ∧
        IsNearestBelow (windowStartUtc sd) (matchingTs db (nearestCond db ft fv)) o) ∧
      (∃ o, err.after = Option.map utcToLa o ∧
        IsNearestAbove (windowEndUtc ed) (matchingTs db (nearestCond db ft fv)) o) := by
  obtain ⟨a, ha⟩ := tsMin_isSome hM
  obtain ⟨b, hb⟩ := tsMax_isSome hM
  have hRange : rangeRes db ft fv = (some (utcToLa a), some (utcToLa b)) := by
    simp [rangeRes, ha, hb]
  have hres : (run_query db ft fv sd ed u).1 = Except.error
      { earliest := some (utcToLa a), latest := some (utcToLa b),
        before := Option.map utcToLa (nearestBefore db ft fv (windowStartUtc sd)),
        after := Option.map utcToLa (nearestAfter db ft fv (windowEndUtc ed)),
        msg := mkNoDataMsg (some (utcToLa a)) (some (utcToLa b))
          (Option.map utcToLa (nearestBefore db ft fv (windowStartUtc sd)))
          (Option.map utcToLa (nearestAfter db ft fv (windowEndUtc ed))) } := by
    simp only [run_query, runQueryAt, hHD, Bool.false_eq_true, if_false]
    simp [hRange]
  refine ⟨_, hres, ⟨a, rfl, tsMin_isMin ha⟩, ⟨b, rfl, tsMax_isMax hb⟩,
    ⟨nearestBefore db ft fv (windowStartUtc sd), rfl, ?_⟩,
    ⟨nearestAfter db ft fv (windowEndUtc ed), rfl, ?_⟩⟩
  · cases hnb : nearestBefore db ft fv (windowStartUtc sd) with
    | none =>
        simp only [IsNearestBelow]
        intro t ht hlt
        simp only [nearestBefore] at hnb
        have hfil := head_sort_none intGe hnb
        have := List.filter_eq_nil_iff.mp hfil t ht
        simp at this
        exact absurd hlt (not_lt.mpr this)
    | some b0 =>
        simp only [IsNearestBelow]
        simp only [nearestBefore] at hnb
        obtain ⟨hmem, hall⟩ := head_sortGe_isMax hnb
        have hmem2 := List.mem_filter.mp hmem
        refine ⟨hmem2.1, by simpa using hmem2.2, ?_⟩
        intro t ht hlt
        exact hall t (List.mem_filter.mpr ⟨ht, by simpa using hlt⟩)
  · cases hna : nearestAfter db ft fv (windowEndUtc ed) with
    | none =>
        simp only [IsNearestAbove]
        intro t ht hlt
        simp only [nearestAfter] at hna
        have hfil := head_sort_none intLe hna
        have := List.filter_eq_nil_iff.mp hfil t ht
        simp at this
        exact absurd hlt (not_lt.mpr this)
    | some a0 =>
        simp only [IsNearestAbove]
        simp only [nearestAfter] at hna
        obtain ⟨hmem, hall⟩ := head_sortLe_isMin hna
        have hmem2 := List.mem_filter.mp hmem
        refine ⟨hmem2.1, by simpa using hmem2.2, ?_⟩
        intro t ht hlt
        exact hall t (List.mem_filter.mpr ⟨ht, by simpa using hlt⟩)

/-- C3 witness: one row well before a later window — earliest = latest =
nearest-before = that row, nearest-after absent. -/
theorem c3_no_data_payload_witness :
    ∃ err : NoDataE,
      (run_query ⟨[[("device_name", Cell.str "d"), ("updated_at", Cell.ts 30000)]], []⟩
        "device_name" "d" 100 200 "f").1 = Except.error err ∧
      (∃ a, err.earliest = some (utcToLa a) ∧
        IsMinOf a (matchingTs ⟨[[("device_name", Cell.str "d"), ("updated_at", Cell.ts 30000)]], []⟩
          (rangeCond ⟨[[("device_name", Cell.str "d"), ("updated_at", Cell.ts 30000)]], []⟩
            "device_name" "d"))) ∧
      (∃ b, err.latest = some (utcToLa b) ∧
        IsMaxOf b (matchingTs ⟨[[("device_name", Cell.str "d"), ("updated_at", Cell.ts 30000)]], []⟩
          (rangeCond ⟨[[("device_name", Cell.str "d"), ("updated_at", Cell.ts 30000)]], []⟩
            "device_name" "d"))) ∧
      (∃ o, err.before = Option.map utcToLa o ∧
        IsNearestBelow (windowStartUtc 100)
          (matchingTs ⟨[[("device_name", Cell.str "d"), ("updated_at", Cell.ts 30000)]], []⟩
            (nearestCond ⟨[[("device_name", Cell.str "d"), ("updated_at", Cell.ts 30000)]], []⟩
              "device_name" "d")) o) ∧
      (∃ o, err.after = Option.map utcToLa o ∧
        IsNearestAbove (windowEndUtc 200)
          (matchingTs ⟨[[("device_name", Cell.str "d"), ("updated_at", Cell.ts 30000)]], []⟩
            (nearestCond ⟨[[("device_name", Cell.str "d"), ("updated_at", Cell.ts 30000)]], []⟩
              "device_name" "d")) o) :=
  c3_no_data_payload _ "device_name" "d" 100 200 "f" (by decide) (by decide)

/-! ### C2 — fetch order and result sortedness -/

theorem mem_dropNaRows_ts {df : DF} {r : Row} (h : r ∈ dropNaRows df) :
    ∃ t, r.lookup "updated_at" = some (Cell.ts t) := by
  simp only [dropNaRows, List.mem_filter] at h
  rcases h with ⟨-, hp⟩
  cases hl : r.lookup "updated_at" with
  | none => rw [hl] at hp; simp at hp
  | some c =>
      cases c with
      | ts t => exact ⟨t, rfl⟩
      | null => rw [hl] at hp; simp at hp
      | num q => rw [hl] at hp; simp at hp
      | str s => rw [hl] at hp; simp at hp

theorem updated_at_not_allNull {df : DF} (hne : df ≠ [])
    (hts : ∀ r ∈ df, ∃ t, r.lookup "updated_at" = some (Cell.ts t)) :
    (allNullCols df).contains "updated_at" = false := by
  cases hc : (allNullCols df).contains "updated_at" with
  | false => rfl
  | true =>
      exfalso
      have hmem : "updated_at" ∈ allNullCols df := by
        have := List.elem_iff.mp hc
        exact this
      simp only [allNullCols, List.mem_filter] at hmem
      obtain ⟨-, hall⟩ := hmem
      cases df with
      | nil => exact hne rfl
      | cons r0 rest =>
          have h0 : (r0.lookup "updated_at" == some Cell.null) = true :=
            List.all_eq_true.mp hall r0 (by simp)
          obtain ⟨t, ht⟩ := hts r0 (by simp)
          rw [ht] at h0
          simp at h0

theorem updated_at_not_tempCol (df : DF) :
    (tempColsOf df).contains "updated_at" = false := by
  cases hc : (tempColsOf df).contains "updated_at" with
  | false => rfl
  | true =>
      exfalso
      have hmem : "updated_at" ∈ tempColsOf df := List.elem_iff.mp hc
      simp only [tempColsOf, List.mem_filter] at hmem
      exact absurd hmem.2 (by decide)

theorem tsKey_of_lookup {r : Row} {t : ℤ}
    (h : r.lookup "updated_at" = some (Cell.ts t)) : tsKey r = t := by
  simp [tsKey, h]

theorem sorted_after_norm (u : String) (df3 : DF)
    (hts : ∀ r ∈ df3, ∃ t, r.lookup "updated_at" = some (Cell.ts t)) :
    List.Sorted rowLe (unitStage u (tzConvertCol (dropAllNullCols (sortAsc df3)))) := by
  -- stage 0: pandas sort_values, ascending
  have hsort1 : List.Sorted rowLe (sortAsc df3) := List.sorted_insertionSort rowLe df3
  have hts1 : ∀ r ∈ sortAsc df3, ∃ t, r.lookup "updated_at" = some (Cell.ts t) := by
    intro r hr
    exact hts r ((List.mem_insertionSort rowLe).mp hr)
  -- stage 1: dropna(axis=1): the filter keeps every updated_at pair
  have hkey1 : ∀ r : Row,
      ((r.filter (fun p => !((allNullCols (sortAsc df3)).contains p.1))).lookup "updated_at") =
        r.lookup "updated_at" := by
    intro r
    apply lookup_filter_of_key
    intro c
    show (!((allNullCols (sortAsc df3)).contains "updated_at")) = true
    rcases hq : (sortAsc df3) with _ | ⟨r0, rest⟩
    · rfl
    · have hts1q : ∀ r2 ∈ r0 :: rest, ∃ t, r2.lookup "updated_at" = some (Cell.ts t) :=
        hq ▸ hts1
      rw [updated_at_not_allNull (List.cons_ne_nil r0 rest) hts1q]
      rfl
  have hsort2 : List.Sorted rowLe (dropAllNullCols (sortAsc df3)) := by
    apply sorted_map_of_mem _ hsort1
    intro a _ b _ hab
    have ha := hkey1 a
    have hb := hkey1 b
    simp only [rowLe] at hab ⊢
    simp only [tsKey, ha, hb]
    exact hab
  have hts2 : ∀ r ∈ dropAllNullCols (sortAsc df3),
      ∃ t, r.lookup "updated_at" = some (Cell.ts t) := by
    intro r hr
    simp only [dropAllNullCols, List.mem_map] at hr
    obtain ⟨r0, hr0, rfl⟩ := hr
    obtain ⟨t, ht⟩ := hts1 r0 hr0
    exact ⟨t, by rw [hkey1 r0, ht]⟩
  -- stage 2: zone conversion shifts every timestamp by the same offset
  have hkey3 : ∀ (r : Row) (t : ℤ), r.lookup "updated_at" = some (Cell.ts t) →
      ((mapVals (fun k v =>
        if k == "updated_at" then
          match v with
          | Cell.ts t0 => Cell.ts (utcToLa t0)
          | c => c
        else v) r).lookup "updated_at") = some (Cell.ts (utcToLa t)) := by
    intro r t ht
    rw [lookup_mapVals, ht]
    rfl
  have hsort3 : List.Sorted rowLe (tzConvertCol (dropAllNullCols (sortAsc df3))) := by
    apply sorted_map_of_mem _ hsort2
    intro a ha b hb hab
    obtain ⟨ta, hta⟩ := hts2 a ha
    obtain ⟨tb, htb⟩ := hts2 b hb
    simp only [rowLe] at hab ⊢
    rw [tsKey_of_lookup (hkey3 a ta hta), tsKey_of_lookup (hkey3 b tb htb)]
    rw [tsKey_of_lookup hta, tsKey_of_lookup htb] at hab
    simp only [utcToLa]
    omega
  have hts3 : ∀ r ∈ tzConvertCol (dropAllNullCols (sortAsc df3)),
      ∃ t, r.lookup "updated_at" = some (Cell.ts t) := by
    intro r hr
    simp only [tzConvertCol, List.mem_map] at hr
    obtain ⟨r0, hr0, rfl⟩ := hr
    obtain ⟨t, ht⟩ := hts2 r0 hr0
    exact ⟨utcToLa t, hkey3 r0 t ht⟩
  -- stage 3: tachometer division leaves the timestamp column unchanged
  have hkeyFan : ∀ r : Row,
      ((mapVals (fun k v => if k == "fan_tach_rpm" then divCell100 v else v) r).lookup
        "updated_at") = r.lookup "updated_at" := by
    intro r
    rw [lookup_mapVals]
    cases r.lookup "updated_at" <;> rfl
  have hsort4 : List.Sorted rowLe (fanStage (tzConvertCol (dropAllNullCols (sortAsc df3)))) := by
    simp only [fanStage]
    split
    · apply sorted_map_of_mem _ hsort3
      intro a _ b _ hab
      simp only [rowLe] at hab ⊢
      simp only [tsKey, hkeyFan]
      exact hab
    · exact hsort3
  have hts4 : ∀ r ∈ fanStage (tzConvertCol (dropAllNullCols (sortAsc df3))),
      ∃ t, r.lookup "updated_at" = some (Cell.ts t) := by
    intro r hr
    simp only [fanStage] at hr
    split at hr
    · simp only [List.mem_map] at hr
      obtain ⟨r0, hr0, rfl⟩ := hr
      obtain ⟨t, ht⟩ := hts3 r0 hr0
      exact ⟨t, by rw [hkeyFan r0, ht]⟩
    · exact hts3 r hr
  -- stage 4: Fahrenheit conversion appends new columns and drops Celsius ones
  simp only [unitStage, tempStage]
  split
  · split
    · -- no Celsius columns: only the (no-op) appends happen
      apply sorted_map_of_mem _ hsort4
      intro a ha b hb hab
      obtain ⟨ta, hta⟩ := hts4 a ha
      obtain ⟨tb, htb⟩ := hts4 b hb
      simp only [rowLe] at hab ⊢
      rw [tsKey_of_lookup (lookup_append_some hta),
        tsKey_of_lookup (lookup_append_some htb)]
      rw [tsKey_of_lookup hta, tsKey_of_lookup htb] at hab
      exact hab
    · -- Celsius columns present: append then drop them
      rw [List.map_map]
      set T := tempColsOf (fanStage (tzConvertCol (dropAllNullCols (sortAsc df3)))) with hT
      apply sorted_map_of_mem _ hsort4
      intro a ha b hb hab
      obtain ⟨ta, hta⟩ := hts4 a ha
      obtain ⟨tb, htb⟩ := hts4 b hb
      simp only [rowLe, Function.comp] at hab ⊢
      have hkeyT : ∀ c : Cell,
          (fun p : String × Cell => !(T.contains p.1)) ("updated_at", c) = true := by
        intro c
        show (!(T.contains "updated_at")) = true
        rw [hT, updated_at_not_tempCol]
        rfl
      have hfil : ∀ (r : Row) (t : ℤ), r.lookup "updated_at" = some (Cell.ts t) →
          ((r ++ T.map (fun c => (fahrName c, convCell ((r.lookup c).getD Cell.null)))).filter
            (fun p => !(T.contains p.1))).lookup "updated_at" = some (Cell.ts t) := by
        intro r t ht
        rw [lookup_filter_of_key _ hkeyT]
        exact lookup_append_some ht
      rw [tsKey_of_lookup (hfil a ta hta), tsKey_of_lookup (hfil b tb htb)]
      rw [tsKey_of_lookup hta, tsKey_of_lookup htb] at hab
      exact hab
  · exact hsort4

/-- C2 counterexample: the main fetch statement is built with ORDER BY
updated_at DESC, not ascending, for every filter kind (shown here at a
concrete one) — the claim that the SELECT is ordered ascending is false of
the code. -/
theorem c2_order_counterexample :
    (mkFetchQuery "device_name").order = Order.desc ∧ Order.desc ≠ Order.asc := by
  exact ⟨rfl, by decide⟩

/-- C2 (amended): the fetch is a bounded SELECT ordered by timestamp
DESCENDING (keeping the most recent rows), capped at the fixed limit 60000
(in the tens of thousands); the rows of the returned ResultSet are
nevertheless in ascending timestamp order, because normalization re-sorts
them ascending. -/
theorem c2_fetch_desc_result_asc :
    (∀ ft : String,
      (mkFetchQuery ft).order = Order.desc ∧ (mkFetchQuery ft).limit = 60000 ∧
        10000 ≤ (mkFetchQuery ft).limit ∧ (mkFetchQuery ft).limit < 100000) ∧
    ∀ (dbM dbF : DB) (ft fv : String) (sd ed : ℤ) (u : String) (out : DF),
      (runQueryAt dbM dbF ft fv sd ed u).1 = Except.ok out → List.Sorted rowLe out := by
  constructor
  · intro ft
    by_cases h : (ft == "esp_ble_id") = true <;> simp [mkFetchQuery, h]
  · intro dbM dbF ft fv sd ed u out h
    simp only [runQueryAt] at h
    by_cases hHD : hasData dbM ft fv (windowStartUtc sd) (windowEndUtc ed) = true
    · rw [if_pos hHD] at h
      simp only [postFetch] at h
      split at h
      · simp at h
        subst h
        exact List.sorted_nil
      · split at h
        · simp at h
          subst h
          exact List.sorted_nil
        · split at h
          · simp at h
            subst h
            exact List.sorted_nil
          · simp at h
            subst h
            apply sorted_after_norm
            intro r hr
            exact mem_dropNaRows_ts hr
    · rw [if_neg hHD] at h
      simp at h

/-- C2 witness: a one-row fetch; its fetch query is DESC with limit 60000
and the returned frame is sorted ascending. -/
theorem c2_fetch_desc_result_asc_witness :
    ((mkFetchQuery "device_name").order = Order.desc ∧
      (mkFetchQuery "device_name").limit = 60000 ∧
      10000 ≤ (mkFetchQuery "device_name").limit ∧
      (mkFetchQuery "device_name").limit < 100000) ∧
    List.Sorted rowLe [[("device_name", Cell.str "d"), ("updated_at", Cell.ts 1200)]] :=
  ⟨c2_fetch_desc_result_asc.1 "device_name",
    c2_fetch_desc_result_asc.2
      ⟨[[("device_name", Cell.str "d"), ("updated_at", Cell.ts 30000)]], []⟩
      ⟨[[("device_name", Cell.str "d"), ("updated_at", Cell.ts 30000)]], []⟩
      "device_name" "d" 0 0 "f"
      [[("device_name", Cell.str "d"), ("updated_at", Cell.ts 1200)]] (by decide)⟩

/-! ### C7 — unit conversions -/

theorem not_tempCol_of_ends_false {k : String} (df : DF)
    (hk : strEndsWith k "_temp_c" = false) : (tempColsOf df).contains k = false := by
  cases hc : (tempColsOf df).contains k with
  | false => rfl
  | true =>
      exfalso
      have hmem : k ∈ tempColsOf df := List.elem_iff.mp hc
      simp only [tempColsOf, List.mem_filter] at hmem
      rw [hmem.2] at hk
      exact absurd hk (by decide)

theorem dfColumns_map_mapVals (g : String → Cell → Cell) (df : DF) :
    dfColumns (df.map (fun r => mapVals g r)) = dfColumns df := by
  cases df with
  | nil => rfl
  | cons r0 rest =>
      simp only [dfColumns, List.map_cons, List.head?_cons, Option.getD_some]
      exact keys_mapVals g r0

theorem lookup_fahr_map {c : String} (L : List String) (f : String → Cell)
    (hin : c ∈ L) (hinj : ∀ c2 ∈ L, fahrName c2 = fahrName c → c2 = c) :
    (L.map (fun c2 => (fahrName c2, f c2))).lookup (fahrName c) = some (f c) := by
  induction L with
  | nil => exact absurd hin (List.not_mem_nil c)
  | cons a L ih =>
      simp only [List.map_cons, List.lookup]
      cases hbeq : (fahrName c == fahrName a) with
      | true =>
          have ha : a = c := hinj a (by simp) (beq_iff_eq.mp hbeq).symm
          rw [ha]
      | false =>
          have hca : c ≠ a := by
            intro hh
            rw [hh] at hbeq
            simp at hbeq
          have hin2 : c ∈ L := by
            rcases List.mem_cons.mp hin with rfl | h2
            · exact absurd rfl hca
            · exact h2
          exact ih hin2 (fun c2 h2 => hinj c2 (by simp [h2]))

/-- C7: with the default Fahrenheit units, the unit-normalization block of
run_query divides a raw fan_tach_rpm value v into v / 100, and replaces a
column c ending in the Celsius suffix _temp_c by its Fahrenheit counterpart
(name with _temp_c replaced by _temp_f) holding c * 9/5 + 32 rounded to 3
decimals, with the Celsius column absent from the output row.  (The side
hypotheses say the frame does not already contain columns colliding with
the generated Fahrenheit names.) -/
theorem c7_unit_conversion (df : DF) (r : Row) (c : String) (q qc : ℚ)
    (hr : r ∈ df)
    (hfan : (dfColumns df).contains "fan_tach_rpm" = true)
    (hq : r.lookup "fan_tach_rpm" = some (Cell.num q))
    (hctemp : c ∈ tempColsOf df)
    (hvc : r.lookup c = some (Cell.num qc))
    (hfresh : (r.map Prod.fst).contains (fahrName c) = false)
    (hinj : ∀ c2 ∈ tempColsOf df, fahrName c2 = fahrName c → c2 = c)
    (hnoc : (tempColsOf df).contains (fahrName c) = false) :
    ∃ r2, r2 ∈ unitStage "f" df ∧
      r2.lookup "fan_tach_rpm" = some (Cell.num (q / 100)) ∧
      r2.lookup (fahrName c) = some (Cell.num (round3 (qc * 9 / 5 + 32))) ∧
      r2.lookup c = none := by
  have hcends : strEndsWith c "_temp_c" = true := by
    simp only [tempColsOf, List.mem_filter] at hctemp
    exact hctemp.2
  have hcfan : c ≠ "fan_tach_rpm" := by
    intro hh
    rw [hh] at hcends
    exact absurd hcends (by decide)
  -- the tachometer stage
  have hfanstage : fanStage df =
      df.map (fun r0 => mapVals (fun k v => if k == "fan_tach_rpm" then divCell100 v else v) r0) := by
    simp only [fanStage]
    rw [if_pos hfan]
  have hr1mem : mapVals (fun k v => if k == "fan_tach_rpm" then divCell100 v else v) r ∈
      fanStage df := by
    rw [hfanstage]
    exact List.mem_map_of_mem _ hr
  have h1fan : (mapVals (fun k v => if k == "fan_tach_rpm" then divCell100 v else v) r).lookup
      "fan_tach_rpm" = some (Cell.num (q / 100)) := by
    rw [lookup_mapVals, hq]
    rfl
  have h1c : (mapVals (fun k v => if k == "fan_tach_rpm" then divCell100 v else v) r).lookup
      c = some (Cell.num qc) := by
    rw [lookup_mapVals, hvc]
    have : (c == "fan_tach_rpm") = false := by
      cases hb : (c == "fan_tach_rpm") with
      | false => rfl
      | true => exact absurd (beq_iff_eq.mp hb) hcfan
    simp [this]
  have h1keys : ((mapVals (fun k v => if k == "fan_tach_rpm" then divCell100 v else v) r).map
      Prod.fst).contains (fahrName c) = false := by
    rw [keys_mapVals]
    exact hfresh
  have h1fresh : (mapVals (fun k v => if k == "fan_tach_rpm" then divCell100 v else v) r).lookup
      (fahrName c) = none := lookup_none_of_keys h1keys
  -- the Fahrenheit stage
  have hTeq : tempColsOf (fanStage df) = tempColsOf df := by
    rw [hfanstage]
    simp only [tempColsOf, dfColumns_map_mapVals]
  have hTne : (tempColsOf (fanStage df)).isEmpty = false := by
    rw [hTeq]
    cases hT : tempColsOf df with
    | nil => rw [hT] at hctemp; exact absurd hctemp (List.not_mem_nil c)
    | cons a L => rfl
  set r1 := mapVals (fun k v => if k == "fan_tach_rpm" then divCell100 v else v) r with hr1
  refine ⟨(r1 ++ (tempColsOf (fanStage df)).map
      (fun c2 => (fahrName c2, convCell ((r1.lookup c2).getD Cell.null)))).filter
      (fun p => !((tempColsOf (fanStage df)).contains p.1)), ?_, ?_, ?_, ?_⟩
  · have hunit : unitStage "f" df =
        ((fanStage df).map (fun r0 => r0 ++ (tempColsOf (fanStage df)).map
          (fun c2 => (fahrName c2, convCell ((r0.lookup c2).getD Cell.null))))).map
          (fun r0 => r0.filter (fun p => !((tempColsOf (fanStage df)).contains p.1))) := by
      simp only [unitStage, tempStage]
      rw [if_pos (by rfl)]
      rw [if_neg (by simp [hTne])]
    rw [hunit]
    exact List.mem_map_of_mem _ (List.mem_map_of_mem _ hr1mem)
  · have hPfan : ∀ cc : Cell, (fun p : String × Cell =>
        !((tempColsOf (fanStage df)).contains p.1)) ("fan_tach_rpm", cc) = true := by
      intro cc
      show (!((tempColsOf (fanStage df)).contains "fan_tach_rpm")) = true
      rw [not_tempCol_of_ends_false _ (by decide)]
      rfl
    rw [lookup_filter_of_key _ hPfan]
    exact lookup_append_some h1fan
  · have hPfahr : ∀ cc : Cell, (fun p : String × Cell =>
        !((tempColsOf (fanStage df)).contains p.1)) (fahrName c, cc) = true := by
      intro cc
      show (!((tempColsOf (fanStage df)).contains (fahrName c))) = true
      rw [hTeq, hnoc]
      rfl
    rw [lookup_filter_of_key _ hPfahr]
    rw [lookup_append_none h1fresh]
    have hlk := lookup_fahr_map (c := c) (tempColsOf (fanStage df))
      (fun c2 => convCell ((r1.lookup c2).getD Cell.null)) (by rw [hTeq]; exact hctemp)
      (by rw [hTeq]; exact hinj)
    rw [hlk]
    simp [h1c, convCell]
  · have hPc : ∀ cc : Cell, (fun p : String × Cell =>
        !((tempColsOf (fanStage df)).contains p.1)) (c, cc) = false := by
      intro cc
      show (!((tempColsOf (fanStage df)).contains c)) = false
      rw [hTeq]
      have : (tempColsOf df).contains c = true := List.elem_iff.mpr hctemp
      rw [this]
      rfl
    exact lookup_filter_none_of_key _ hPc

/-- C7 witness: a row with fan_tach_rpm = 1234 and device_temp_c = 0
normalizes to fan_tach_rpm = 12.34 and device_temp_f = 32.0, with
device_temp_c absent. -/
theorem c7_unit_conversion_witness :
    (∃ r2, r2 ∈ unitStage "f" [[("fan_tach_rpm", Cell.num 1234), ("device_temp_c", Cell.num 0)]] ∧
      r2.lookup "fan_tach_rpm" = some (Cell.num (1234 / 100)) ∧
      r2.lookup (fahrName "device_temp_c") = some (Cell.num (round3 (0 * 9 / 5 + 32))) ∧
      r2.lookup "device_temp_c" = none) ∧
    (1234 : ℚ) / 100 = 12.34 ∧ round3 (0 * 9 / 5 + 32) = 32 ∧
    fahrName "device_temp_c" = "device_temp_f" := by
  refine ⟨c7_unit_conversion [[("fan_tach_rpm", Cell.num 1234), ("device_temp_c", Cell.num 0)]]
    [("fan_tach_rpm", Cell.num 1234), ("device_temp_c", Cell.num 0)] "device_temp_c" 1234 0
    (by decide) (by decide) (by decide) (by decide) (by decide) (by decide) ?_ (by decide),
    by norm_num, by norm_num [round3, roundHalfEven], by decide⟩
  decide

end GUIVerify
